import Mathlib

/-!
Shallow embedding of the SpookyHash implementation in
`src/src/jenkins/spooky_hash.rs`.

Machine integers are modelled as `Nat` with explicit reduction modulo
`2 ^ 64` wherever the Rust code uses `Wrapping<u64>` arithmetic.  Bytes
are `Nat` values reduced modulo `256` at the point where they enter the
hasher's buffer (`u8` in the source).  The fixed 192-byte buffer
`m_data` is modelled as a total function from byte index to byte value.
Unsafe pointer operations that would read or write out of bounds (or a
`usize` subtraction that would overflow) make the modelled operation
return `none`.
-/

namespace SpookyModel

set_option maxRecDepth 100000

/-- Number of u64 words in the internal state (`SC_NUM_VARS`). -/
def SC_NUM_VARS : Nat := 12

/-- Size of the internal state in bytes (`SC_BLOCK_SIZE`). -/
def SC_BLOCK_SIZE : Nat := SC_NUM_VARS * 8

/-- Size of the buffer of unhashed data in bytes (`SC_BUF_SIZE`). -/
def SC_BUF_SIZE : Nat := 2 * SC_BLOCK_SIZE

/-- The SpookyHash constant `SC_CONST = 0xdeadbeefdeadbeef`. -/
def SC_CONST : Nat := 0xdeadbeefdeadbeef

/-- Truncation to 64 bits, the semantics of storing into a `u64`. -/
def w64 (x : Nat) : Nat := x % 2 ^ 64

/-- Wrapping 64-bit addition (`Wrapping<u64> +`). -/
def add64 (a b : Nat) : Nat := (a + b) % 2 ^ 64

/-- Bitwise xor on 64-bit words. -/
def xor64 (a b : Nat) : Nat := Nat.xor a b

/-- 64-bit rotate left by `k` (`rot64` in the source):
`x << k | x >> (64 - k)` with wrapping shift. -/
def rot64 (x k : Nat) : Nat := Nat.lor ((x <<< k) % 2 ^ 64) (x >>> (64 - k))

/-- Little-endian load of a `u64` from eight consecutive bytes
(`load_int_le!(_, base, u64)`). -/
def le64 (f : Nat → Nat) (base : Nat) : Nat :=
  f base + f (base + 1) * 2 ^ 8 + f (base + 2) * 2 ^ 16 + f (base + 3) * 2 ^ 24 +
    f (base + 4) * 2 ^ 32 + f (base + 5) * 2 ^ 40 + f (base + 6) * 2 ^ 48 +
    f (base + 7) * 2 ^ 56

/-- Little-endian load of a `u32` from four consecutive bytes
(`load_int_le!(_, base, u32)`). -/
def le32 (f : Nat → Nat) (base : Nat) : Nat :=
  f base + f (base + 1) * 2 ^ 8 + f (base + 2) * 2 ^ 16 + f (base + 3) * 2 ^ 24

/-- The four-word working state `(a, b, c, d)` of the short path. -/
structure S4 where
  a : Nat
  b : Nat
  c : Nat
  d : Nat

/-- The twelve-word state of the long path (`h0`..`h11` / `s0`..`s11`). -/
structure S12 where
  s0 : Nat
  s1 : Nat
  s2 : Nat
  s3 : Nat
  s4 : Nat
  s5 : Nat
  s6 : Nat
  s7 : Nat
  s8 : Nat
  s9 : Nat
  s10 : Nat
  s11 : Nat

/-- The `short_mix` network: twelve rotate/add/xor steps on `(a,b,c,d)`,
transcribed statement by statement from the source. -/
def short_mix (st : S4) : S4 :=
  let h0 := st.a
  let h1 := st.b
  let h2 := st.c
  let h3 := st.d
  let h2 := rot64 h2 50
  let h2 := add64 h2 h3
  let h0 := xor64 h0 h2
  let h3 := rot64 h3 52
  let h3 := add64 h3 h0
  let h1 := xor64 h1 h3
  let h0 := rot64 h0 30
  let h0 := add64 h0 h1
  let h2 := xor64 h2 h0
  let h1 := rot64 h1 41
  let h1 := add64 h1 h2
  let h3 := xor64 h3 h1
  let h2 := rot64 h2 54
  let h2 := add64 h2 h3
  let h0 := xor64 h0 h2
  let h3 := rot64 h3 48
  let h3 := add64 h3 h0
  let h1 := xor64 h1 h3
  let h0 := rot64 h0 38
  let h0 := add64 h0 h1
  let h2 := xor64 h2 h0
  let h1 := rot64 h1 37
  let h1 := add64 h1 h2
  let h3 := xor64 h3 h1
  let h2 := rot64 h2 62
  let h2 := add64 h2 h3
  let h0 := xor64 h0 h2
  let h3 := rot64 h3 34
  let h3 := add64 h3 h0
  let h1 := xor64 h1 h3
  let h0 := rot64 h0 5
  let h0 := add64 h0 h1
  let h2 := xor64 h2 h0
  let h1 := rot64 h1 36
  let h1 := add64 h1 h2
  let h3 := xor64 h3 h1
  { a := h0, b := h1, c := h2, d := h3 }

/-- The `short_end` finalization network of the short path. -/
def short_end (st : S4) : S4 :=
  let h0 := st.a
  let h1 := st.b
  let h2 := st.c
  let h3 := st.d
  let h3 := xor64 h3 h2
  let h2 := rot64 h2 15
  let h3 := add64 h3 h2
  let h0 := xor64 h0 h3
  let h3 := rot64 h3 52
  let h0 := add64 h0 h3
  let h1 := xor64 h1 h0
  let h0 := rot64 h0 26
  let h1 := add64 h1 h0
  let h2 := xor64 h2 h1
  let h1 := rot64 h1 51
  let h2 := add64 h2 h1
  let h3 := xor64 h3 h2
  let h2 := rot64 h2 28
  let h3 := add64 h3 h2
  let h0 := xor64 h0 h3
  let h3 := rot64 h3 9
  let h0 := add64 h0 h3
  let h1 := xor64 h1 h0
  let h0 := rot64 h0 47
  let h1 := add64 h1 h0
  let h2 := xor64 h2 h1
  let h1 := rot64 h1 54
  let h2 := add64 h2 h1
  let h3 := xor64 h3 h2
  let h2 := rot64 h2 32
  let h3 := add64 h3 h2
  let h0 := xor64 h0 h3
  let h3 := rot64 h3 25
  let h0 := add64 h0 h3
  let h1 := xor64 h1 h0
  let h0 := rot64 h0 63
  let h1 := add64 h1 h0
  { a := h0, b := h1, c := h2, d := h3 }

/-- One iteration of the short path's 32-byte loop body: absorb two
words into `(c,d)`, run `short_mix`, absorb two words into `(a,b)`. -/
def shortBlock (buf : Nat → Nat) (base : Nat) (st : S4) : S4 :=
  let c := add64 st.c (buf base)
  let d := add64 st.d (buf (base + 1))
  let m := short_mix { a := st.a, b := st.b, c := c, d := d }
  let a := add64 m.a (buf (base + 2))
  let b := add64 m.b (buf (base + 3))
  { a := a, b := b, c := m.c, d := m.d }

/-- The short path's `while base < end` loop, one `shortBlock` per
complete set of 32 bytes. -/
def shortLoop (buf : Nat → Nat) : Nat → Nat → S4 → S4
  | _, 0, st => st
  | base, n + 1, st => shortLoop buf (base + 4) n (shortBlock buf base st)

/-- The `short` function: hashing for messages under 192 bytes.
`message` is the byte buffer, `length` the number of valid bytes.  The
local 192-byte buffer is the first `length` bytes of `message`
zero-padded, viewed as little-endian u64 words. -/
def short (message : Nat → Nat) (length : Nat) (hash1 hash2 : Nat) : Nat × Nat :=
  let buffer : Nat → Nat := fun i =>
    le64 (fun j => if j < length then message j else 0) (8 * i)
  let st0 : S4 := { a := hash1, b := hash2, c := SC_CONST, d := SC_CONST }
  let rem0 := length % 32
  let mid : S4 × Nat × Nat :=
    if 15 < length then
      let st := shortLoop buffer 0 (length / 32) st0
      let base := length / 32 * 4
      if 15 < rem0 then
        let c := add64 st.c (buffer base)
        let d := add64 st.d (buffer (base + 1))
        let st := short_mix { a := st.a, b := st.b, c := c, d := d }
        (st, base + 2, rem0 - 16)
      else
        (st, base, rem0)
    else
      (st0, 0, rem0)
  let st1 := mid.1
  let base := mid.2.1 * 8
  let remainder := mid.2.2
  let d := add64 st1.d (w64 (length <<< 56))
  let c := st1.c
  let cd : Nat × Nat :=
    if 12 ≤ remainder then
      let d := if 14 < remainder then add64 d (w64 (message (base + 14) <<< 48)) else d
      let d := if 13 < remainder then add64 d (w64 (message (base + 13) <<< 40)) else d
      let d := if 12 < remainder then add64 d (w64 (message (base + 12) <<< 32)) else d
      let c := add64 c (le64 message base)
      let d := add64 d (le32 message (base + 8))
      (c, d)
    else if 8 ≤ remainder then
      let d := if 10 < remainder then add64 d (w64 (message (base + 10) <<< 16)) else d
      let d := if 9 < remainder then add64 d (w64 (message (base + 9) <<< 8)) else d
      let d := if 8 < remainder then add64 d (message (base + 8)) else d
      let c := add64 c (le64 message base)
      (c, d)
    else if 4 ≤ remainder then
      let c := if 6 < remainder then add64 c (w64 (message (base + 6) <<< 48)) else c
      let c := if 5 < remainder then add64 c (w64 (message (base + 5) <<< 40)) else c
      let c := if 4 < remainder then add64 c (w64 (message (base + 4) <<< 32)) else c
      let c := add64 c (le32 message base)
      (c, d)
    else if 1 ≤ remainder then
      let c := if 2 < remainder then add64 c (w64 (message (base + 2) <<< 16)) else c
      let c := if 1 < remainder then add64 c (w64 (message (base + 1) <<< 8)) else c
      let c := add64 c (message base)
      (c, d)
    else
      (add64 c SC_CONST, add64 d SC_CONST)
  let fin := short_end { a := st1.a, b := st1.b, c := cd.1, d := cd.2 }
  (fin.a, fin.b)

/-- The block mixer `mix`: absorbs one 12-word data block into the
12-word state, transcribed statement by statement from the source. -/
def mix (data : S12) (s : S12) : S12 :=
  let s0 := s.s0
  let s1 := s.s1
  let s2 := s.s2
  let s3 := s.s3
  let s4 := s.s4
  let s5 := s.s5
  let s6 := s.s6
  let s7 := s.s7
  let s8 := s.s8
  let s9 := s.s9
  let s10 := s.s10
  let s11 := s.s11
  let s0 := add64 s0 data.s0
  let s2 := xor64 s2 s10
  let s11 := xor64 s11 s0
  let s0 := rot64 s0 11
  let s11 := add64 s11 s1
  let s1 := add64 s1 data.s1
  let s3 := xor64 s3 s11
  let s0 := xor64 s0 s1
  let s1 := rot64 s1 32
  let s0 := add64 s0 s2
  let s2 := add64 s2 data.s2
  let s4 := xor64 s4 s0
  let s1 := xor64 s1 s2
  let s2 := rot64 s2 43
  let s1 := add64 s1 s3
  let s3 := add64 s3 data.s3
  let s5 := xor64 s5 s1
  let s2 := xor64 s2 s3
  let s3 := rot64 s3 31
  let s2 := add64 s2 s4
  let s4 := add64 s4 data.s4
  let s6 := xor64 s6 s2
  let s3 := xor64 s3 s4
  let s4 := rot64 s4 17
  let s3 := add64 s3 s5
  let s5 := add64 s5 data.s5
  let s7 := xor64 s7 s3
  let s4 := xor64 s4 s5
  let s5 := rot64 s5 28
  let s4 := add64 s4 s6
  let s6 := add64 s6 data.s6
  let s8 := xor64 s8 s4
  let s5 := xor64 s5 s6
  let s6 := rot64 s6 39
  let s5 := add64 s5 s7
  let s7 := add64 s7 data.s7
  let s9 := xor64 s9 s5
  let s6 := xor64 s6 s7
  let s7 := rot64 s7 57
  let s6 := add64 s6 s8
  let s8 := add64 s8 data.s8
  let s10 := xor64 s10 s6
  let s7 := xor64 s7 s8
  let s8 := rot64 s8 55
  let s7 := add64 s7 s9
  let s9 := add64 s9 data.s9
  let s11 := xor64 s11 s7
  let s8 := xor64 s8 s9
  let s9 := rot64 s9 54
  let s8 := add64 s8 s10
  let s10 := add64 s10 data.s10
  let s0 := xor64 s0 s8
  let s9 := xor64 s9 s10
  let s10 := rot64 s10 22
  let s9 := add64 s9 s11
  let s11 := add64 s11 data.s11
  let s1 := xor64 s1 s9
  let s10 := xor64 s10 s11
  let s11 := rot64 s11 46
  let s10 := add64 s10 s0
  { s0 := s0, s1 := s1, s2 := s2, s3 := s3, s4 := s4, s5 := s5, s6 := s6,
    s7 := s7, s8 := s8, s9 := s9, s10 := s10, s11 := s11 }

/-- One pass of the partial finalization network (`end_partial` in the
source, rotate constants 44 15 34 21 38 33 10 13 38 53 42 54). -/
def endPass (h : S12) : S12 :=
  let h0 := h.s0
  let h1 := h.s1
  let h2 := h.s2
  let h3 := h.s3
  let h4 := h.s4
  let h5 := h.s5
  let h6 := h.s6
  let h7 := h.s7
  let h8 := h.s8
  let h9 := h.s9
  let h10 := h.s10
  let h11 := h.s11
  let h11 := add64 h11 h1
  let h2 := xor64 h2 h11
  let h1 := rot64 h1 44
  let h0 := add64 h0 h2
  let h3 := xor64 h3 h0
  let h2 := rot64 h2 15
  let h1 := add64 h1 h3
  let h4 := xor64 h4 h1
  let h3 := rot64 h3 34
  let h2 := add64 h2 h4
  let h5 := xor64 h5 h2
  let h4 := rot64 h4 21
  let h3 := add64 h3 h5
  let h6 := xor64 h6 h3
  let h5 := rot64 h5 38
  let h4 := add64 h4 h6
  let h7 := xor64 h7 h4
  let h6 := rot64 h6 33
  let h5 := add64 h5 h7
  let h8 := xor64 h8 h5
  let h7 := rot64 h7 10
  let h6 := add64 h6 h8
  let h9 := xor64 h9 h6
  let h8 := rot64 h8 13
  let h7 := add64 h7 h9
  let h10 := xor64 h10 h7
  let h9 := rot64 h9 38
  let h8 := add64 h8 h10
  let h11 := xor64 h11 h8
  let h10 := rot64 h10 53
  let h9 := add64 h9 h11
  let h0 := xor64 h0 h9
  let h11 := rot64 h11 42
  let h10 := add64 h10 h0
  let h1 := xor64 h1 h10
  let h0 := rot64 h0 54
  { s0 := h0, s1 := h1, s2 := h2, s3 := h3, s4 := h4, s5 := h5, s6 := h6,
    s7 := h7, s8 := h8, s9 := h9, s10 := h10, s11 := h11 }

/-- The finalizer `end`: add the twelve data words into the twelve
state words, then three consecutive passes of `endPass`. -/
def spookyEnd (data : S12) (h : S12) : S12 :=
  let h0 := add64 h.s0 data.s0
  let h1 := add64 h.s1 data.s1
  let h2 := add64 h.s2 data.s2
  let h3 := add64 h.s3 data.s3
  let h4 := add64 h.s4 data.s4
  let h5 := add64 h.s5 data.s5
  let h6 := add64 h.s6 data.s6
  let h7 := add64 h.s7 data.s7
  let h8 := add64 h.s8 data.s8
  let h9 := add64 h.s9 data.s9
  let h10 := add64 h.s10 data.s10
  let h11 := add64 h.s11 data.s11
  endPass (endPass (endPass
    { s0 := h0, s1 := h1, s2 := h2, s3 := h3, s4 := h4, s5 := h5, s6 := h6,
      s7 := h7, s8 := h8, s9 := h9, s10 := h10, s11 := h11 }))

/-- Positionwise wrapping addition of a data block into a state, the
spec's description of the data-folding phase of the finalizer. -/
def add12 (data : S12) (h : S12) : S12 :=
  { s0 := add64 h.s0 data.s0, s1 := add64 h.s1 data.s1,
    s2 := add64 h.s2 data.s2, s3 := add64 h.s3 data.s3,
    s4 := add64 h.s4 data.s4, s5 := add64 h.s5 data.s5,
    s6 := add64 h.s6 data.s6, s7 := add64 h.s7 data.s7,
    s8 := add64 h.s8 data.s8, s9 := add64 h.s9 data.s9,
    s10 := add64 h.s10 data.s10, s11 := add64 h.s11 data.s11 }

/-- The streaming hasher state (`struct SpookyHasher`).  `m_data` is the
192-byte buffer of unhashed data, modelled as a total byte function;
`m_state` the 12-word internal state; `m_length` the total input length;
`m_remainder` the number of unhashed bytes stashed in `m_data`. -/
structure SpookyHasher where
  m_data : Nat → Nat
  m_state : S12
  m_length : Nat
  m_remainder : Nat

/-- `SpookyHasher::new`: zero buffer and counters, state words 0 and 1
seeded from the two `u64` seeds, the rest zero. -/
def SpookyHasher.new (seed1 seed2 : Nat) : SpookyHasher :=
  { m_data := fun _ => 0,
    m_state :=
      { s0 := w64 seed1, s1 := w64 seed2, s2 := 0, s3 := 0, s4 := 0, s5 := 0,
        s6 := 0, s7 := 0, s8 := 0, s9 := 0, s10 := 0, s11 := 0 },
    m_length := 0,
    m_remainder := 0 }

/-- `Hasher::write` for `SpookyHasher`.  When the buffered bytes plus
the incoming bytes stay below `SC_BUF_SIZE`, the bytes are copied into
`m_data` at offset `m_remainder` and the counters updated.  Otherwise
the function body past the early return consists only of commented-out
code, so it returns with the hasher unchanged. -/
def write (s : SpookyHasher) (bytes : List Nat) : SpookyHasher :=
  let new_length := s.m_remainder + bytes.length
  if new_length < SC_BUF_SIZE then
    { s with
      m_data := fun j =>
        if s.m_remainder ≤ j ∧ j < new_length then bytes.getD (j - s.m_remainder) 0 % 256
        else s.m_data j,
      m_length := s.m_length + bytes.length,
      m_remainder := new_length }
  else
    s

/-- The 12-word block starting at u64-element index `k` of a word
array. -/
def blockAt (dw : Nat → Nat) (k : Nat) : S12 :=
  { s0 := dw k, s1 := dw (k + 1), s2 := dw (k + 2), s3 := dw (k + 3),
    s4 := dw (k + 4), s5 := dw (k + 5), s6 := dw (k + 6), s7 := dw (k + 7),
    s8 := dw (k + 8), s9 := dw (k + 9), s10 := dw (k + 10), s11 := dw (k + 11) }

/-- The tail of the long path of `finish128`, after the optional first
block has been mixed: the two `ptr::write_bytes` calls (zeroing the
padding tail, then storing the remainder sentinel) followed by the
finalizer `end` on the block at element 0 and the extraction of words
0 and 1.  The source computes the `write_bytes` offsets and counts as
byte quantities but applies them to a `*mut Wrapping<u64>`, so they
address u64 elements of the `2 * SC_NUM_VARS`-element array; an
out-of-bounds write (or a `usize` subtraction overflow in
`SC_BLOCK_SIZE - remainder`) is modelled as `none`. -/
def finishTail (dw : Nat → Nat) (h : S12) (base remainder : Nat) : Option (Nat × Nat) :=
  if SC_BLOCK_SIZE < remainder then
    none
  else if base + remainder + (SC_BLOCK_SIZE - remainder) ≤ 2 * SC_NUM_VARS then
    let dw1 : Nat → Nat := fun i =>
      if base + remainder ≤ i ∧ i < base + SC_BLOCK_SIZE then 0 else dw i
    if SC_BLOCK_SIZE - 1 + 1 ≤ 2 * SC_NUM_VARS then
      let dw2 : Nat → Nat := fun i =>
        if i = SC_BLOCK_SIZE - 1 then le64 (fun _ => remainder % 256) 0 else dw1 i
      let hf := spookyEnd (blockAt dw2 0) h
      some (hf.s0, hf.s1)
    else
      none
  else
    none

/-- The long path of `finish128` over the word view `dw` of the copied
buffer: mix the first whole block when more than one block is buffered,
then run `finishTail`. -/
def finishLong (dw : Nat → Nat) (st : S12) (rem : Nat) : Option (Nat × Nat) :=
  let mixed : S12 × Nat × Nat :=
    if SC_BLOCK_SIZE < rem then
      (mix (blockAt dw 0) st, SC_BLOCK_SIZE, rem - SC_BLOCK_SIZE)
    else
      (st, 0, rem)
  finishTail dw mixed.1 mixed.2.1 mixed.2.2

/-- `SpookyHasher::finish128`.  The short branch calls `short` over
`m_data` with `m_length` bytes, seeded from state words 0 and 1.  The
long branch copies `m_length` bytes of `m_data` into a local array of
`2 * SC_NUM_VARS` u64 words (out of bounds, hence `none`, when
`m_length` exceeds the 192-byte buffer) and runs `finishLong`. -/
def SpookyHasher.finish128 (s : SpookyHasher) : Option (Nat × Nat) :=
  if s.m_length < SC_BUF_SIZE then
    some (short s.m_data s.m_length s.m_state.s0 s.m_state.s1)
  else if SC_BUF_SIZE < s.m_length then
    none
  else
    let dw : Nat → Nat := fun i =>
      le64 (fun j => if j < s.m_length then s.m_data j else 0) (8 * i)
    finishLong dw s.m_state s.m_remainder

/-- `Hasher::finish` for `SpookyHasher`: word 0 of `finish128`. -/
def finishU64 (s : SpookyHasher) : Option Nat :=
  match s.finish128 with
  | some p => some p.1
  | none => none

/-- Hasher states reachable from `SpookyHasher::new seed1 seed2` by any
sequence of `write` calls. -/
inductive ReachableFrom (seed1 seed2 : Nat) : SpookyHasher → Prop
  | init : ReachableFrom seed1 seed2 (SpookyHasher.new seed1 seed2)
  | step (s : SpookyHasher) (bytes : List Nat) :
      ReachableFrom seed1 seed2 s → ReachableFrom seed1 seed2 (write s bytes)

/-- A call of `finish128` through `&self`: the digest together with the
receiver, which a shared borrow without interior mutability cannot
change. -/
def finish128Call (s : SpookyHasher) : Option (Nat × Nat) × SpookyHasher :=
  (s.finish128, s)

/-- `n` successive `finish128` calls with no intervening `write`: the
list of returned digests and the final hasher state. -/
def finishCalls : SpookyHasher → Nat → List (Option (Nat × Nat)) × SpookyHasher
  | s, 0 => ([], s)
  | s, n + 1 =>
    let r := finish128Call s
    let rest := finishCalls r.2 n
    (r.1 :: rest.1, rest.2)

/-- `write` never touches the internal 12-word state. -/
theorem write_m_state (s : SpookyHasher) (bytes : List Nat) :
    (write s bytes).m_state = s.m_state := by
  simp only [write]
  split <;> rfl

/-- Along any sequence of `write` calls the internal state keeps its
initial seeded value. -/
theorem reach_state {seed1 seed2 : Nat} {s : SpookyHasher}
    (h : ReachableFrom seed1 seed2 s) :
    s.m_state = (SpookyHasher.new seed1 seed2).m_state := by
  induction h with
  | init => rfl
  | step s bytes hr ih => rw [write_m_state, ih]

/-- In every reachable state the two counters agree and stay below the
buffer size: `write` either advances both by the slice length or leaves
both unchanged. -/
theorem reach_counters {seed1 seed2 : Nat} {s : SpookyHasher}
    (h : ReachableFrom seed1 seed2 s) :
    s.m_length = s.m_remainder ∧ s.m_length < 192 := by
  induction h with
  | init =>
    refine ⟨rfl, ?_⟩
    show (0 : Nat) < 192
    decide
  | step s bytes hr ih =>
    have hbuf : SC_BUF_SIZE = 192 := rfl
    simp only [write]
    split
    · next hc =>
      dsimp only
      omega
    · exact ih

/-- `finishTail` always fails: the zero-padding `write_bytes` spans
`base + SC_BLOCK_SIZE ≥ 96` u64 elements of a `2 * SC_NUM_VARS = 24`
element array, and the sentinel store targets element
`SC_BLOCK_SIZE - 1 = 95`. -/
theorem finishTail_none (dw : Nat → Nat) (h : S12) (base remainder : Nat) :
    finishTail dw h base remainder = none := by
  unfold finishTail
  split
  · rfl
  · next hrem =>
    have hb : SC_BLOCK_SIZE = 96 := rfl
    have hn : 2 * SC_NUM_VARS = 24 := rfl
    rw [if_neg (by omega)]

/-- `finishLong` always fails, whichever branch absorbed the first
block. -/
theorem finishLong_none (dw : Nat → Nat) (st : S12) (rem : Nat) :
    finishLong dw st rem = none := by
  unfold finishLong
  exact finishTail_none _ _ _ _

/-- A hasher state with one full buffer's worth of input, used to
exercise the long path of `finish128` directly. -/
def longState : SpookyHasher :=
  { m_data := fun _ => 0,
    m_state := (SpookyHasher.new 0 0).m_state,
    m_length := 192,
    m_remainder := 192 }

/-- C1.  Chunk invariance of the streaming hasher fails: for the
192-byte all-zero input split at the 96-byte block boundary,
appending the two halves and finalizing does not give the digest of
appending the whole input once and finalizing (the one-shot append
meets the 192-byte threshold and is discarded by `write`). -/
theorem chunk_split_digest_differs :
    SpookyHasher.finish128
        (write (write (SpookyHasher.new 0 0) (List.replicate 96 0)) (List.replicate 96 0)) ≠
      SpookyHasher.finish128 (write (SpookyHasher.new 0 0) (List.replicate 192 0)) := by
  decide

/-- C2.  Known-answer vector: seeds `(0, 0)`, empty input, the 64-bit
digest (`finish`, word 0 of `finish128`) is `2533000996631939353`. -/
theorem finish_empty_known_answer :
    finishU64 (SpookyHasher.new 0 0) = some 2533000996631939353 := by
  decide

/-- C3.  At the double-block threshold `write` does not extract and mix
96-byte blocks as the spec describes: a fresh hasher given 192 bytes is
returned with every field unchanged, so no block reached the mixer, no
leftover bytes were buffered, and neither counter advanced. -/
theorem write_at_threshold_discards :
    write (SpookyHasher.new 0 0) (List.replicate 192 37) = SpookyHasher.new 0 0 := rfl

/-- C4.  Long-path finalization never produces the described
sentinel-padded digest: for every state with `m_length ≥ 192` the
modelled `finish128` fails, because the padding and sentinel
`write_bytes` apply byte offsets to a u64-element pointer and land
outside the 24-element array (and a copy of more than 192 bytes reads
outside `m_data`). -/
theorem finish128_long_oob (s : SpookyHasher) (h : 192 ≤ s.m_length) :
    s.finish128 = none := by
  have hbuf : SC_BUF_SIZE = 192 := rfl
  unfold SpookyHasher.finish128
  rw [if_neg (by omega)]
  split
  · rfl
  · exact finishLong_none _ _ _

/-- Witness for C4 at the concrete state `longState`. -/
theorem finish128_long_oob_witness :
    192 ≤ longState.m_length ∧ longState.finish128 = none :=
  ⟨by decide, finish128_long_oob longState (by decide)⟩

/-- C5.  Short/long dispatch: a reachable hasher state whose total
length is below 192 bytes is finalized by the short-path engine over
the buffered bytes, seeded from state words 0 and 1, which still hold
the caller's original seeds. -/
theorem finish128_short_dispatch (seed1 seed2 : Nat) (s : SpookyHasher)
    (hr : ReachableFrom seed1 seed2 s) (hlen : s.m_length < 192) :
    s.finish128 = some (short s.m_data s.m_length (w64 seed1) (w64 seed2)) := by
  have hs := reach_state hr
  unfold SpookyHasher.finish128
  rw [if_pos (show s.m_length < SC_BUF_SIZE from hlen), hs]
  rfl

/-- Witness for C5 at the freshly constructed hasher with seeds 3, 4. -/
theorem finish128_short_dispatch_witness :
    ReachableFrom 3 4 (SpookyHasher.new 3 4) ∧
      (SpookyHasher.new 3 4).m_length < 192 ∧
      (SpookyHasher.new 3 4).finish128 =
        some (short (SpookyHasher.new 3 4).m_data (SpookyHasher.new 3 4).m_length
          (w64 3) (w64 4)) :=
  ⟨ReachableFrom.init, by decide,
    finish128_short_dispatch 3 4 _ ReachableFrom.init (by decide)⟩

/-- C6.  State invariants: in every reachable state the buffered length
is at most 192 and does not exceed the total length, and one further
`write` call preserves both invariants. -/
theorem write_invariants (seed1 seed2 : Nat) (s : SpookyHasher) (bytes : List Nat)
    (hr : ReachableFrom seed1 seed2 s) :
    s.m_remainder ≤ 192 ∧ s.m_remainder ≤ s.m_length ∧
      (write s bytes).m_remainder ≤ 192 ∧
      (write s bytes).m_remainder ≤ (write s bytes).m_length := by
  obtain ⟨h1, h2⟩ := reach_counters hr
  obtain ⟨h3, h4⟩ := reach_counters (ReachableFrom.step s bytes hr)
  omega

/-- Witness for C6 at the fresh hasher and a three-byte write. -/
theorem write_invariants_witness :
    (SpookyHasher.new 0 0).m_remainder ≤ 192 ∧
      (SpookyHasher.new 0 0).m_remainder ≤ (SpookyHasher.new 0 0).m_length ∧
      (write (SpookyHasher.new 0 0) [1, 2, 3]).m_remainder ≤ 192 ∧
      (write (SpookyHasher.new 0 0) [1, 2, 3]).m_remainder ≤
        (write (SpookyHasher.new 0 0) [1, 2, 3]).m_length :=
  write_invariants 0 0 _ [1, 2, 3] ReachableFrom.init

/-- C7.  Finalization is idempotent and read-only: `finish128` takes the
hasher by shared reference, so any number of successive calls with no
intervening `write` returns the same digest every time and leaves the
hasher state unchanged. -/
theorem finish_calls_idempotent (s : SpookyHasher) (n : Nat) :
    finishCalls s n = (List.replicate n s.finish128, s) := by
  induction n with
  | zero => rfl
  | succ n ih => simp only [finishCalls, finish128Call, ih, List.replicate_succ]

/-- C8.  The finalizer `end` adds the twelve data words into the twelve
state words positionwise and then applies the partial-finalization
network `end_partial` (rotate constants 44 15 34 21 38 33 10 13 38 53
42 54) exactly three times, with no further data input between the
passes. -/
theorem end_three_passes (data h : S12) :
    spookyEnd data h = endPass^[3] (add12 data h) := rfl

/-- C9.  When the buffered length plus the incoming slice length
reaches `SC_BUF_SIZE = 192`, `write` returns with every field of the
hasher unchanged: the incoming bytes are silently discarded. -/
theorem write_overflow_unchanged (s : SpookyHasher) (bytes : List Nat)
    (h : 192 ≤ s.m_remainder + bytes.length) :
    write s bytes = s := by
  have hbuf : SC_BUF_SIZE = 192 := rfl
  simp only [write]
  rw [if_neg (by omega)]

/-- Witness for C9: a fresh hasher given 200 bytes at once. -/
theorem write_overflow_unchanged_witness :
    192 ≤ (SpookyHasher.new 0 0).m_remainder + (List.replicate 200 1).length ∧
      write (SpookyHasher.new 0 0) (List.replicate 200 1) = SpookyHasher.new 0 0 :=
  ⟨by decide, write_overflow_unchanged _ _ (by decide)⟩

/-- C10.  In every reachable state `m_length = m_remainder < 192`, so
`finish128` always takes the short-path branch; the long-path
finalization code is unreachable through the streaming interface. -/
theorem reachable_short_path (seed1 seed2 : Nat) (s : SpookyHasher)
    (hr : ReachableFrom seed1 seed2 s) :
    s.m_length = s.m_remainder ∧ s.m_length < 192 ∧
      s.finish128 = some (short s.m_data s.m_length s.m_state.s0 s.m_state.s1) := by
  obtain ⟨h1, h2⟩ := reach_counters hr
  refine ⟨h1, h2, ?_⟩
  unfold SpookyHasher.finish128
  rw [if_pos (show s.m_length < SC_BUF_SIZE from h2)]

/-- Witness for C10 at the fresh hasher with seeds 0, 0. -/
theorem reachable_short_path_witness :
    (SpookyHasher.new 0 0).m_length = (SpookyHasher.new 0 0).m_remainder ∧
      (SpookyHasher.new 0 0).m_length < 192 ∧
      (SpookyHasher.new 0 0).finish128 =
        some (short (SpookyHasher.new 0 0).m_data (SpookyHasher.new 0 0).m_length
          (SpookyHasher.new 0 0).m_state.s0 (SpookyHasher.new 0 0).m_state.s1) :=
  reachable_short_path 0 0 _ ReachableFrom.init

end SpookyModel
